import Mathlib

/-!
# Verification of the HWRNG qualification core (src/pic32/hwrng.c)

This file is a shallow embedding of the hardware random number generator
qualification code of `src/pic32/hwrng.c` together with proofs about it.

Modelling conventions:

* The Q16.16 fixed-point type `fix16_t` (a C `int32_t`) is modelled as `Int`;
  the raw integer value `v` represents the real number `v / 2^16`.
* C arrays read by the code are modelled as functions `Nat → _`.
* Arithmetic right shift of a two's-complement `int32_t` by `k` equals floor
  division by `2^k`; `x & 1` of an `int32_t` equals `x mod 2` with a
  non-negative result.  Lean's `Int` division and modulus by a positive
  numeral are Euclidean, which coincides with floor division / non-negative
  remainder for positive divisors, so `>> k` is embedded as `/ 2^k` and
  `& 1` as `% 2`.
* Unsigned C arithmetic is modelled on `Nat` with explicit `% 4294967296`
  where wrap-around matters.
* The embedding is of the production build: `TEST_STATISTICS` and
  `IGNORE_HWRNG_FAILURE` are both unset.
* Values produced by collaborator modules that are outside this repository
  slice (the ADC driver, `statistics.c`'s central moments / entropy /
  autocorrelation, the compile-time constants of `hwrng_limits.h`, `adc.h`
  and `fft.h`) enter the definitions as parameters ("oracles").
-/

/-- `OVERSAMPLE_RATIO` from hwrng.c: number of ADC samples per HWRNG sample. -/
def oversampleRatio : Nat := 2

/-- `FILTER_HALF_ORDER` from hwrng.c. -/
def filterHalfOrder : Nat := 8

/-- `FILTER_ORDER = 2 * FILTER_HALF_ORDER + 1` from hwrng.c. -/
def filterOrder : Nat := 2 * filterHalfOrder + 1

/-- `fir_lowpass_coefficients` from hwrng.c, Q16.16 raw values. -/
def fir_lowpass_coefficients : List Int :=
  [-123, 202, 711, 0, -2681, -2929, 5309, 19161,
   26236,
   19161, 5309, -2929, -2681, 0, 711, 202, -123]

/-- Modelled from the spec: the fixed-point library (`fix16.h`, not part of
the source slice) provides a Q16.16 multiply with rounding (product of raw
values, shifted right by 16 with round-half-up, i.e. floor of
`(a*b + 2^15) / 2^16`), and a sticky error flag on overflow.  Saturation /
the sticky flag are not modelled; claims that depend on `fix16_mul` only use
its rounded value. -/
def fix16_mul (a b : Int) : Int := (a * b + 32768) / 65536

/-- Modelled from the spec: Q16.16 addition of the fixed-point library
(`fix16.h`, not part of the source slice); overflow handling not modelled. -/
def fix16_add (a b : Int) : Int := a + b

/-- Modelled from the spec: integer to Q16.16 conversion of the fixed-point
library (`fix16.h`, not part of the source slice). -/
def fix16_from_int (a : Int) : Int := a * 65536

/-- The rounding step of `firFilter` (hwrng.c line 379):
`(sum >> 16) + ((sum >> 15) & 1)` on an `int32_t` accumulator, embedded with
arithmetic-shift = floor-division semantics. -/
def firRound (sum : Int) : Int := sum / 65536 + sum / 32768 % 2

/-- The circular index `(base_index + i) & (ADC_SAMPLE_BUFFER_SIZE - 1)`
used by `firFilter` (hwrng.c line 376) to read the ADC sample buffer. -/
def firIndex (adcBufSize base_index i : Nat) : Nat :=
  (base_index + i) &&& (adcBufSize - 1)

/-- The convolution accumulator of `firFilter` (hwrng.c lines 370-378):
partial sum over the first `i` filter taps.  The C accumulator is an
`int32_t`; per the warning in hwrng.c all coefficients have magnitude below
one so the sum stays in range, and it is modelled as an unbounded `Int`. -/
def firSum (samples : Nat → Nat) (base_index : Nat) (coefficients : Nat → Int)
    (adcBufSize : Nat) : Nat → Int
  | 0 => 0
  | i + 1 => firSum samples base_index coefficients adcBufSize i +
      (samples (firIndex adcBufSize base_index i) : Int) * coefficients i

/-- `firFilter` from hwrng.c (lines 363-380): circular convolution of the ADC
sample buffer with the FIR coefficients, followed by the rounding shift. -/
def firFilter (samples : Nat → Nat) (base_index : Nat) (coefficients : Nat → Int)
    (order : Nat) (adcBufSize : Nat) : Int :=
  firRound (firSum samples base_index coefficients adcBufSize order)

/-- The base index computation of `fillAndTestSamplesArray` (hwrng.c line
419): `((j * OVERSAMPLE_RATIO) - FILTER_HALF_ORDER) & (ADC_SAMPLE_BUFFER_SIZE
- 1)` in `unsigned int` arithmetic (wrap-around subtraction modulo `2^32`). -/
def fillBaseIndex (adcBufSize j : Nat) : Nat :=
  ((j * oversampleRatio % 4294967296 + (4294967296 - filterHalfOrder)) % 4294967296)
    &&& (adcBufSize - 1)

/-- The peak search loop of `estimateBandwidth` (hwrng.c lines 104-113):
starting from `(threshold, max_bin) = (0, 0)`, scan bins `i, i+1, ...` (the
`fuel` argument counts the remaining iterations; the caller passes
`fuel = FFT_SIZE + 1` and `i = 0` so the loop visits bins `0 .. FFT_SIZE`),
replacing the accumulator whenever `psd i` strictly exceeds it. -/
def psdPeakSearchAux (psd : Nat → Int) : Nat → Nat → Int × Nat → Int × Nat
  | 0, _, acc => acc
  | fuel + 1, i, acc =>
      psdPeakSearchAux psd fuel (i + 1) (if acc.1 < psd i then (psd i, i) else acc)

/-- The peak of the PSD accumulator and its bin, as computed by the first
loop of `estimateBandwidth` over bins `0 .. n` (`n` stands for `FFT_SIZE`). -/
def psdPeakSearch (psd : Nat → Int) (n : Nat) : Int × Nat :=
  psdPeakSearchAux psd (n + 1) 0 (0, 0)

/-- The left-edge search loop of `estimateBandwidth` (hwrng.c lines 116-134):
walk `i` downward; `counter` is the running count of consecutive bins
strictly below the threshold, reset on any bin at or above it.  On reaching
`reps` (`PSD_THRESHOLD_REPETITIONS`) consecutive below-threshold bins the
loop breaks with `left_bin = i + reps`; if the walk reaches below zero
without triggering, `left_bin` keeps its initial value `0`. -/
def leftSearch (psd : Nat → Int) (t : Int) (reps : Nat) : Nat → Nat → Nat
  | i, counter =>
      let c := if psd i < t then counter + 1 else 0
      if reps ≤ c then i + reps
      else
        match i with
        | 0 => 0
        | i' + 1 => leftSearch psd t reps i' c

/-- The right-edge search loop of `estimateBandwidth` (hwrng.c lines
136-153): walk `i` upward while `i < n + 1` (the caller passes
`fuel = n + 1 - i` so `fuel = 0` is exactly the loop exit, in which case
`right_bin` keeps its initial value `n = FFT_SIZE`); on the below-threshold
streak reaching `reps`, break with `right_bin = i - reps` (a C `int`, so the
result is an `Int`). -/
def rightSearch (psd : Nat → Int) (t : Int) (reps n : Nat) : Nat → Nat → Nat → Int
  | 0, _, _ => (n : Int)
  | fuel + 1, i, counter =>
      let c := if psd i < t then counter + 1 else 0
      if reps ≤ c then (i : Int) - (reps : Int)
      else rightSearch psd t reps n fuel (i + 1) c

/-- `estimateBandwidth` from hwrng.c (lines 95-156), parameterised by the
PSD accumulator `psd`, `n = FFT_SIZE`, the Q16.16 constant
`F16(PSD_BANDWIDTH_THRESHOLD)` and `reps = PSD_THRESHOLD_REPETITIONS` (the
constants live in `hwrng_limits.h`, outside the source slice).  Returns the
bandwidth `right_bin - left_bin` and the peak bin (the `out_max_bin`
out-parameter). -/
def estimateBandwidth (psd : Nat → Int) (n : Nat) (bwThreshF16 : Int) (reps : Nat) :
    Int × Nat :=
  let peak := psdPeakSearch psd n
  let t := fix16_mul peak.1 bwThreshF16
  let left := leftSearch psd t reps peak.2 0
  let right := rightSearch psd t reps n (n + 1 - peak.2) peak.2 0
  (right - (left : Int), peak.2)

/-- The scan loop of `findMaximumAutoCorrelation` (hwrng.c lines 174-186):
running maximum of the absolute values of the correlogram's real parts
(`buf i` is `fft_buffer[i].real`).  The caller passes `fuel = n + 1 - i`. -/
def findMaxAutoCorrAux (buf : Nat → Int) : Nat → Nat → Int → Int
  | 0, _, m => m
  | fuel + 1, i, m =>
      let s := buf i
      let s := if s < 0 then -s else s
      findMaxAutoCorrAux buf fuel (i + 1) (if m < s then s else m)

/-- `findMaximumAutoCorrelation` from hwrng.c (lines 168-188): the maximum
of `|fft_buffer[i].real|` over lags `i` in `[AUTOCORR_START_LAG, FFT_SIZE]`
(the loop runs `i < FFT_SIZE + 1`), starting from `0`.  `startLag` stands
for `AUTOCORR_START_LAG` and `n` for `FFT_SIZE`. -/
def findMaximumAutoCorrelation (buf : Nat → Int) (startLag n : Nat) : Int :=
  findMaxAutoCorrAux buf (n + 1 - startLag) startLag 0

/-- The squared-form skewness test of `histogramTestsFailed` (hwrng.c lines
251-261): `kappa3^2 >= variance^3 * F16(STATTEST_MAX_SKEWNESS^2)` computed
with Q16.16 multiplications exactly as in the source (`smaxSqF16` is the
compile-time constant `F16(STATTEST_MAX_SKEWNESS * STATTEST_MAX_SKEWNESS)`
of `hwrng_limits.h`). -/
def skewnessTestQ16 (variance kappa3 smaxSqF16 : Int) : Bool :=
  let variance_squared := fix16_mul variance variance
  let variance_cubed := fix16_mul variance_squared variance
  let kappa3_squared := fix16_mul kappa3 kappa3
  fix16_mul variance_cubed smaxSqF16 ≤ kappa3_squared

/-- One C statement `if (cond) tests_failed |= bits;` of the test
routines. -/
def setBits (t : Nat) (cond : Prop) [Decidable cond] (bits : Nat) : Nat :=
  if cond then t ||| bits else t

/-- `histogramTestsFailed` from hwrng.c (lines 198-292), production build.
The central moments `mean`, `variance`, `kappa3`, `kappa4` and the entropy
estimate are computed by `statistics.c` (outside the source slice) and enter
as parameters, as do the outcomes of the sticky fixed-point error flag
around the moment group (`moment_error_occurred`), the histogram overflow
flag, the sticky flag around the entropy estimate
(`entropy_error_occurred`), and the Q16.16 comparison constants of
`hwrng_limits.h`.  Returns the `tests_failed` bitset. -/
def histogramTestsFailed (mean variance kappa3 kappa4 entropy_estimate : Int)
    (moment_error_occurred histogram_overflow_occurred entropy_error_occurred : Bool)
    (minMeanF16 maxMeanF16 minVarF16 maxVarF16 smaxSqF16
      minKurtF16 maxKurtF16 minEntropyF16 : Int) : Nat :=
  setBits
    (setBits
      (setBits
        (setBits
          (setBits
            (setBits
              (setBits
                (setBits
                  (setBits
                    (setBits 0
                      (mean ≤ minMeanF16) 1)
                    (maxMeanF16 ≤ mean) 1)
                  (variance ≤ minVarF16) 2)
                (maxVarF16 ≤ variance) 2)
              (skewnessTestQ16 variance kappa3 smaxSqF16 = true) 4)
            (kappa4 ≤ fix16_add (fix16_mul minKurtF16 (fix16_mul variance variance))
              (fix16_mul (fix16_from_int 3) (fix16_mul variance variance))) 8)
          (fix16_add (fix16_mul maxKurtF16 (fix16_mul variance variance))
            (fix16_mul (fix16_from_int 3) (fix16_mul variance variance)) ≤ kappa4) 8)
        ((moment_error_occurred || histogram_overflow_occurred) = true) 15)
      (entropy_estimate < minEntropyF16) 128)
    (entropy_error_occurred = true) 128

/-- `fftTestsFailed` from hwrng.c (lines 300-351), production build.  The
correlogram `corr` (`fft_buffer[i].real` as filled by
`calculateAutoCorrelation` of `statistics.c`), its sticky-flag outcome
`autocorrelation_error_occurred`, the PSD accumulator `psd` with its
overflow flag `psd_accumulator_error_occurred`, and the Q16.16 constants of
`hwrng_limits.h` enter as parameters.  Returns the `tests_failed` bitset. -/
def fftTestsFailed (variance : Int) (psd : Nat → Int) (n : Nat)
    (bwThreshF16 : Int) (reps : Nat) (corr : Nat → Int) (startLag : Nat)
    (autocorrelation_error_occurred psd_accumulator_error_occurred : Bool)
    (minPeakF16 maxPeakF16 minBwF16 autocorrThreshF16 : Int) : Nat :=
  setBits
    (setBits
      (setBits
        (setBits
          (setBits
            (setBits 0
              (fix16_from_int ((estimateBandwidth psd n bwThreshF16 reps).2 : Int) <
                minPeakF16) 16)
            (maxPeakF16 <
              fix16_from_int ((estimateBandwidth psd n bwThreshF16 reps).2 : Int)) 16)
          (fix16_from_int (estimateBandwidth psd n bwThreshF16 reps).1 < minBwF16) 32)
        (psd_accumulator_error_occurred = true) 48)
      (fix16_mul variance autocorrThreshF16 <
        findMaximumAutoCorrelation corr startLag n) 64)
    (autocorrelation_error_occurred = true) 64

/-- The combined verdict of one qualification run
(`fillAndTestSamplesArray`, hwrng.c lines 439-440):
`histogramTestsFailed(&variance) | fftTestsFailed(variance)`. -/
def qualificationVerdict (mean variance kappa3 kappa4 entropy_estimate : Int)
    (moment_error_occurred histogram_overflow_occurred entropy_error_occurred : Bool)
    (minMeanF16 maxMeanF16 minVarF16 maxVarF16 smaxSqF16
      minKurtF16 maxKurtF16 minEntropyF16 : Int)
    (psd : Nat → Int) (n : Nat) (bwThreshF16 : Int) (reps : Nat)
    (corr : Nat → Int) (startLag : Nat)
    (autocorrelation_error_occurred psd_accumulator_error_occurred : Bool)
    (minPeakF16 maxPeakF16 minBwF16 autocorrThreshF16 : Int) : Nat :=
  histogramTestsFailed mean variance kappa3 kappa4 entropy_estimate
      moment_error_occurred histogram_overflow_occurred entropy_error_occurred
      minMeanF16 maxMeanF16 minVarF16 maxVarF16 smaxSqF16
      minKurtF16 maxKurtF16 minEntropyF16 |||
    fftTestsFailed variance psd n bwThreshF16 reps corr startLag
      autocorrelation_error_occurred psd_accumulator_error_occurred
      minPeakF16 maxPeakF16 minBwF16 autocorrThreshF16

/-- The state owned by hwrng.c that `hardwareRandom32Bytes` operates on:
the vetted pool `samples` (hwrng.c line 82, an array of `SAMPLE_COUNT`
16-bit samples) and the consumption cursor `samples_consumed` (line 85).
`lastVerdict` is a ghost field recording the `tests_failed` verdict of the
most recent qualification run; it has no C counterpart and is never read by
the step function, it only lets theorems speak about the provenance of the
pool. -/
structure HwrngState where
  samples : Nat → Nat
  samples_consumed : Nat
  lastVerdict : Nat

/-- Oracle for one qualification run of `fillAndTestSamplesArray`: the
filtered samples the FIR stage would write into the pool (as `int32_t`
values of `firFilter`), and the `tests_failed` verdict the statistical
tests would produce on them (`histogramTestsFailed | fftTestsFailed`,
cf. `qualificationVerdict`).  Both depend on the ADC hardware and on
collaborator modules outside the source slice, so they enter as data. -/
structure FillOutcome where
  newPool : Nat → Int
  verdict : Nat

/-- `fillAndTestSamplesArray` from hwrng.c (lines 386-455), production build
(`IGNORE_HWRNG_FAILURE` unset): reset `samples_consumed` to 0 (line 397),
store the filtered `int32_t` samples into the `uint16_t` pool (line 421; the
C conversion is reduction modulo `2^16`), and return `true` exactly when
`tests_failed` is non-zero (line 451). -/
def fillAndTestSamplesArray (o : FillOutcome) : Bool × HwrngState :=
  (o.verdict != 0,
   { samples := fun idx => ((o.newPool idx) % 65536).toNat
     samples_consumed := 0
     lastVerdict := o.verdict })

/-- One write `buffer[idx] = v` into the caller's output buffer.  The buffer
is modelled as `Nat → Option Nat`, `none` marking bytes the call has not
written. -/
def writeByte (buf : Nat → Option Nat) (idx v : Nat) : Nat → Option Nat :=
  fun j => if j = idx then some v else buf j

/-- The copy loop of `hardwareRandom32Bytes` (hwrng.c lines 492-498):
`sample = samples[samples_consumed]; buffer[i*2] = (uint8_t)sample;
buffer[i*2+1] = (uint8_t)(sample >> 8); samples_consumed++;` for
`i = 0 .. 15`.  `fuel` counts the remaining iterations (the caller passes
16); returns the final cursor and buffer. -/
def copyLoopAux (pool : Nat → Nat) : Nat → Nat → Nat → (Nat → Option Nat) →
    Nat × (Nat → Option Nat)
  | 0, cursor, _, buf => (cursor, buf)
  | fuel + 1, cursor, i, buf =>
      let sample := pool cursor
      let buf := writeByte buf (i * 2) (sample % 256)
      let buf := writeByte buf (i * 2 + 1) (sample / 256 % 256)
      copyLoopAux pool fuel (cursor + 1) (i + 1) buf

/-- The full 16-iteration copy loop starting at cursor `cursor` with an
unwritten output buffer. -/
def copyLoop (pool : Nat → Nat) (cursor : Nat) : Nat × (Nat → Option Nat) :=
  copyLoopAux pool 16 cursor 0 (fun _ => none)

/-- Modelled from the spec: `ENTROPY_BITS_PER_SAMPLE` lives in
`hwrng_limits.h`, outside the source slice, so the configured value enters
as a rational `e` (the exact value of the C `double`; multiplication by
`16.0` is exact in binary floating point).  The C cast
`(int)(16.0 * ENTROPY_BITS_PER_SAMPLE)` (hwrng.c line 505) truncates toward
zero. -/
def entropyReturnValue (e : ℚ) : Int :=
  if 0 ≤ e then Int.floor (16 * e) else Int.ceil (16 * e)

/-- `hardwareRandom32Bytes` from hwrng.c (lines 467-507), production build
(`TEST_STATISTICS` and `IGNORE_HWRNG_FAILURE` unset).  `SC` stands for
`SAMPLE_COUNT` and `e` for `ENTROPY_BITS_PER_SAMPLE` (both from
`hwrng_limits.h`, outside the source slice).  Returns the C return value,
the bytes written into the caller's 32-byte buffer (`none` = not written),
and the post-state. -/
def hardwareRandom32Bytes (SC : Nat) (e : ℚ) (st : HwrngState) (o : FillOutcome) :
    Int × (Nat → Option Nat) × HwrngState :=
  if st.samples_consumed = 0 ∨ SC ≤ st.samples_consumed then
    let fr := fillAndTestSamplesArray o
    if fr.1 then (-1, fun _ => none, fr.2)
    else
      let r := copyLoop fr.2.samples fr.2.samples_consumed
      (entropyReturnValue e, r.2, { fr.2 with samples_consumed := r.1 })
  else
    let r := copyLoop st.samples st.samples_consumed
    (entropyReturnValue e, r.2, { st with samples_consumed := r.1 })

/-- The invariant tying the cursor to the ghost verdict: whenever some
samples have been consumed, the most recent qualification run passed.  This
is the inductive invariant behind the pool-integrity claim. -/
def poolInvariant (st : HwrngState) : Prop :=
  st.samples_consumed ≠ 0 → st.lastVerdict = 0

/-- Spec-side (§4.5 of the spec): bins `i, i+1, ..., i+reps-1` are all
strictly below the threshold. -/
def belowWindow (psd : Nat → Int) (t : Int) (reps i : Nat) : Prop :=
  ∀ d, d < reps → psd (i + d) < t

instance belowWindowDec (psd : Nat → Int) (t : Int) (reps i : Nat) :
    Decidable (belowWindow psd t reps i) := by
  unfold belowWindow; infer_instance

/-- Spec-side: the left-edge walk triggers at `j` when the window of `reps`
consecutive below-threshold bins starting at `j` lies inside the walked
range (`j + reps ≤ bound`, with `bound = max_bin + 1`). -/
def leftTrigger (psd : Nat → Int) (t : Int) (reps bound j : Nat) : Prop :=
  j + reps ≤ bound ∧ belowWindow psd t reps j

instance leftTriggerDec (psd : Nat → Int) (t : Int) (reps bound j : Nat) :
    Decidable (leftTrigger psd t reps bound j) := by
  unfold leftTrigger; infer_instance

instance existsLeftTriggerDec (psd : Nat → Int) (t : Int) (reps bound : Nat) :
    Decidable (∃ j, leftTrigger psd t reps bound j) :=
  decidable_of_iff (∃ j : Fin (bound + 1), leftTrigger psd t reps bound (j : Nat))
    (by
      constructor
      · rintro ⟨j, hj⟩; exact ⟨(j : Nat), hj⟩
      · rintro ⟨j, hj⟩
        exact ⟨⟨j, by have := hj.1; omega⟩, hj⟩)

/-- Spec-side (§4.5, left edge): the walk from `max_bin = m` down toward 0
counts a streak of consecutive bins strictly below threshold, resetting on
any bin at or above it; on the streak first reaching `reps` at bin `i` the
result is `i + reps`, i.e. `reps` more than the greatest trigger position;
if it never triggers the result is 0. -/
def leftEdgeSpec (psd : Nat → Int) (t : Int) (reps m : Nat) : Nat :=
  if ∃ j, leftTrigger psd t reps (m + 1) j then
    Nat.findGreatest (leftTrigger psd t reps (m + 1)) m + reps
  else 0

/-- Spec-side: the right-edge walk (started at bin `i` with an incoming
streak credit of `c` below-threshold bins just walked) triggers at the
window of `reps` consecutive below-threshold bins starting at `j`, provided
the window begins no earlier than the credited region (`i ≤ j + c`) and
ends inside the walked range (`j + reps ≤ n + 1`). -/
def rightTrigger (psd : Nat → Int) (t : Int) (reps n i c j : Nat) : Prop :=
  i ≤ j + c ∧ j + reps ≤ n + 1 ∧ belowWindow psd t reps j

instance rightTriggerDec (psd : Nat → Int) (t : Int) (reps n i c j : Nat) :
    Decidable (rightTrigger psd t reps n i c j) := by
  unfold rightTrigger; infer_instance

instance existsRightTriggerDec (psd : Nat → Int) (t : Int) (reps n i c : Nat) :
    Decidable (∃ j, rightTrigger psd t reps n i c j) :=
  decidable_of_iff (∃ j : Fin (n + 2), rightTrigger psd t reps n i c (j : Nat))
    (by
      constructor
      · rintro ⟨j, hj⟩; exact ⟨(j : Nat), hj⟩
      · rintro ⟨j, hj⟩
        exact ⟨⟨j, by have := hj.2.1; omega⟩, hj⟩)

/-- Spec-side (§4.5, right edge): the walk from `max_bin = m` up to
`FFT_SIZE = n` triggers at the earliest window of `reps` consecutive
below-threshold bins starting at or after `m`; on trigger at bin
`i = j + reps - 1` the result is `i - reps = j - 1`; if it never triggers
the result is `n`. -/
def rightEdgeSpec (psd : Nat → Int) (t : Int) (reps m n : Nat) : Int :=
  if h : ∃ j, rightTrigger psd t reps n m 0 j then (Nat.find h : Int) - 1
  else (n : Int)

/-- Spec-side (§4.6 and §8 of the spec): the exact-arithmetic form of the
squared skewness test, `kappa3 ^ 2 ≥ variance ^ 3 · s_max ^ 2`, over the
rationals (`v`, `k3`, `ssq` are the real values represented by the Q16.16
quantities, `ssq = s_max ^ 2`). -/
def skewnessTestExact (v k3 ssq : ℚ) : Prop := v ^ 3 * ssq ≤ k3 ^ 2

/-- C4: FIR rounding.  For every 32-bit signed accumulator value `sum`
produced by the convolution, the `firFilter` result
`(sum >> 16) + ((sum >> 15) & 1)` equals `floor((sum + 2^15) / 2^16)`
(round-half-up of `sum / 2^16`), for negative as well as non-negative
sums. -/
theorem firRound_eq_round_half_up (sum : Int)
    (hlo : -2147483648 ≤ sum) (hhi : sum < 2147483648) :
    firRound sum = (sum + 32768) / 65536 := by
  unfold firRound
  omega

/-- Witness for C4 at the concrete accumulator value `-98304` (raw `-1.5` in
Q16.16), a negative exact half: the result is `-1`, i.e. round-half-up. -/
theorem firRound_eq_round_half_up_witness :
    (-2147483648 ≤ (-98304 : Int) ∧ (-98304 : Int) < 2147483648) ∧
      firRound (-98304) = ((-98304 : Int) + 32768) / 65536 :=
  ⟨by decide, firRound_eq_round_half_up (-98304) (by decide) (by decide)⟩

/-- C10: circular-convolution in-bounds access.  When
`ADC_SAMPLE_BUFFER_SIZE = 2^k` is a power of two, every index `firFilter`
uses to read the ADC circular buffer — `firIndex` applied to the wrapped
base index computed by `fillAndTestSamplesArray`, for any output index `j`
and any tap `i` (including the wrap-around cases where
`j*OVERSAMPLE_RATIO - FILTER_HALF_ORDER` underflows or `base_index + i`
runs past the buffer end) — lies in `[0, ADC_SAMPLE_BUFFER_SIZE - 1]`. -/
theorem firIndex_in_bounds (k j i : Nat) :
    firIndex (2 ^ k) (fillBaseIndex (2 ^ k) j) i < 2 ^ k := by
  have h1 : firIndex (2 ^ k) (fillBaseIndex (2 ^ k) j) i ≤ 2 ^ k - 1 :=
    Nat.and_le_right
  have h2 : 0 < 2 ^ k := Nat.pos_pow_of_pos k (by decide)
  omega

theorem copyLoop_cursor (pool : Nat → Nat) (c : Nat) :
    (copyLoop pool c).1 = c + 16 := by
  simp [copyLoop, copyLoopAux]

theorem copyLoop_bytes (pool : Nat → Nat) (c : Nat) (i : Nat) (hi : i < 16) :
    (copyLoop pool c).2 (i * 2) = some (pool (c + i) % 256) ∧
      (copyLoop pool c).2 (i * 2 + 1) = some (pool (c + i) / 256 % 256) := by
  interval_cases i <;>
    simp [copyLoop, copyLoopAux, writeByte, Nat.add_assoc]

theorem entropyReturnValue_nonneg {e : ℚ} (he : 0 ≤ e) :
    0 ≤ entropyReturnValue e := by
  unfold entropyReturnValue
  rw [if_pos he]
  exact Int.le_floor.mpr (by push_cast; linarith)

theorem entropyReturnValue_pos {e : ℚ} (he : 1 / 16 ≤ e) :
    0 < entropyReturnValue e := by
  have he0 : (0 : ℚ) ≤ e := by linarith
  unfold entropyReturnValue
  rw [if_pos he0]
  have : (1 : Int) ≤ Int.floor (16 * e) := Int.le_floor.mpr (by push_cast; linarith)
  omega


/-- Exhaustive case analysis of one `hardwareRandom32Bytes` call (production
build), stated componentwise: either the call performed a qualification run
that failed, or it performed one that passed and then copied from the fresh
pool at cursor 0, or the pool still had unconsumed samples and it copied at
the current cursor. -/
theorem step_cases (SC : Nat) (e : ℚ) (st : HwrngState) (o : FillOutcome) :
    (((st.samples_consumed = 0 ∨ SC ≤ st.samples_consumed) ∧ o.verdict ≠ 0) ∧
      (hardwareRandom32Bytes SC e st o).1 = -1 ∧
      (hardwareRandom32Bytes SC e st o).2.1 = (fun _ => none) ∧
      (hardwareRandom32Bytes SC e st o).2.2.samples =
        (fun idx => ((o.newPool idx) % 65536).toNat) ∧
      (hardwareRandom32Bytes SC e st o).2.2.samples_consumed = 0 ∧
      (hardwareRandom32Bytes SC e st o).2.2.lastVerdict = o.verdict) ∨
    (((st.samples_consumed = 0 ∨ SC ≤ st.samples_consumed) ∧ o.verdict = 0) ∧
      (hardwareRandom32Bytes SC e st o).1 = entropyReturnValue e ∧
      (hardwareRandom32Bytes SC e st o).2.1 =
        (copyLoop (fun idx => ((o.newPool idx) % 65536).toNat) 0).2 ∧
      (hardwareRandom32Bytes SC e st o).2.2.samples =
        (fun idx => ((o.newPool idx) % 65536).toNat) ∧
      (hardwareRandom32Bytes SC e st o).2.2.samples_consumed =
        (copyLoop (fun idx => ((o.newPool idx) % 65536).toNat) 0).1 ∧
      (hardwareRandom32Bytes SC e st o).2.2.lastVerdict = o.verdict) ∨
    ((¬(st.samples_consumed = 0 ∨ SC ≤ st.samples_consumed)) ∧
      (hardwareRandom32Bytes SC e st o).1 = entropyReturnValue e ∧
      (hardwareRandom32Bytes SC e st o).2.1 =
        (copyLoop st.samples st.samples_consumed).2 ∧
      (hardwareRandom32Bytes SC e st o).2.2.samples = st.samples ∧
      (hardwareRandom32Bytes SC e st o).2.2.samples_consumed =
        (copyLoop st.samples st.samples_consumed).1 ∧
      (hardwareRandom32Bytes SC e st o).2.2.lastVerdict = st.lastVerdict) := by
  by_cases hg : st.samples_consumed = 0 ∨ SC ≤ st.samples_consumed
  · by_cases hv : o.verdict = 0
    · refine Or.inr (Or.inl ⟨⟨hg, hv⟩, ?_, ?_, ?_, ?_, ?_⟩) <;>
        simp [hardwareRandom32Bytes, fillAndTestSamplesArray, hg, hv]
    · refine Or.inl ⟨⟨hg, hv⟩, ?_, ?_, ?_, ?_, ?_⟩ <;>
        simp [hardwareRandom32Bytes, fillAndTestSamplesArray, hg, hv]
  · refine Or.inr (Or.inr ⟨hg, ?_, ?_, ?_, ?_, ?_⟩) <;>
      simp [hardwareRandom32Bytes, hg]

/-- C2: error atomicity of the consumer operation (production build).
Whenever a qualification run happens on this call and its verdict is
non-zero, `hardwareRandom32Bytes` returns `-1` (negative) and writes
nothing to the output buffer; conversely any call that wrote at least one
byte returned a non-negative value (`e` is the configured
`ENTROPY_BITS_PER_SAMPLE`, a non-negative quantity). -/
theorem hardwareRandom32Bytes_error_atomic (SC : Nat) (e : ℚ) (st : HwrngState)
    (o : FillOutcome) (he : 0 ≤ e) :
    (((st.samples_consumed = 0 ∨ SC ≤ st.samples_consumed) ∧ o.verdict ≠ 0) →
        (hardwareRandom32Bytes SC e st o).1 = -1 ∧
        (hardwareRandom32Bytes SC e st o).2.1 = fun _ => none) ∧
    ((hardwareRandom32Bytes SC e st o).2.1 ≠ (fun _ => none) →
        0 ≤ (hardwareRandom32Bytes SC e st o).1) := by
  rcases step_cases SC e st o with ⟨h, h1, h2, _⟩ | ⟨h, h1, _⟩ | ⟨h, h1, _⟩
  · refine ⟨fun _ => ⟨h1, h2⟩, fun hb => absurd h2 hb⟩
  · refine ⟨fun hf => absurd h.2 hf.2, fun _ => ?_⟩
    rw [h1]
    exact entropyReturnValue_nonneg he
  · refine ⟨fun hf => absurd hf.1 h, fun _ => ?_⟩
    rw [h1]
    exact entropyReturnValue_nonneg he

/-- Witness for C2: a concrete failing run (cursor 0 forces a run, verdict
1) returns `-1` and leaves the whole buffer unwritten. -/
theorem hardwareRandom32Bytes_error_atomic_witness :
    (hardwareRandom32Bytes 32 (21 / 2) ⟨fun _ => 0, 0, 0⟩ ⟨fun _ => 0, 1⟩).1 = -1 ∧
      (hardwareRandom32Bytes 32 (21 / 2) ⟨fun _ => 0, 0, 0⟩ ⟨fun _ => 0, 1⟩).2.1 =
        fun _ => none :=
  (hardwareRandom32Bytes_error_atomic 32 (21 / 2) ⟨fun _ => 0, 0, 0⟩ ⟨fun _ => 0, 1⟩
      (by norm_num)).1 ⟨Or.inl rfl, by decide⟩

/-- C5: entropy-bits return value.  On every call whose statistical tests
passed (no fresh run failed on it), `hardwareRandom32Bytes` returns exactly
the configured constant `(int)(16.0 * ENTROPY_BITS_PER_SAMPLE)` — i.e.
`16 · ENTROPY_BITS_PER_SAMPLE` rounded (truncated) to an integer — and this
value is positive provided the configured entropy per sample is at least
`1/16` bit (the constant itself lives in `hwrng_limits.h`, outside the
source slice). -/
theorem hardwareRandom32Bytes_success_return (SC : Nat) (e : ℚ) (st : HwrngState)
    (o : FillOutcome) (he : 1 / 16 ≤ e)
    (hsucc : ¬((st.samples_consumed = 0 ∨ SC ≤ st.samples_consumed) ∧ o.verdict ≠ 0)) :
    (hardwareRandom32Bytes SC e st o).1 = entropyReturnValue e ∧
      0 < (hardwareRandom32Bytes SC e st o).1 ∧
      (hardwareRandom32Bytes SC e st o).1 = Int.floor (16 * e) := by
  have he0 : (0 : ℚ) ≤ e := by linarith
  rcases step_cases SC e st o with ⟨h, _⟩ | ⟨h, h1, _⟩ | ⟨h, h1, _⟩ <;>
    [exact absurd h hsucc; skip; skip] <;>
    rw [h1] <;>
    exact ⟨rfl, entropyReturnValue_pos he, by simp [entropyReturnValue, he0]⟩

/-- Witness for C5: a passing run with `ENTROPY_BITS_PER_SAMPLE = 10.5`
returns `(int)(16.0 * 10.5) = 168 > 0`. -/
theorem hardwareRandom32Bytes_success_return_witness :
    ((1 : ℚ) / 16 ≤ 21 / 2) ∧
      ((hardwareRandom32Bytes 32 (21 / 2) ⟨fun _ => 0, 0, 0⟩ ⟨fun _ => 0, 0⟩).1 =
          entropyReturnValue (21 / 2) ∧
        0 < (hardwareRandom32Bytes 32 (21 / 2) ⟨fun _ => 0, 0, 0⟩ ⟨fun _ => 0, 0⟩).1 ∧
        (hardwareRandom32Bytes 32 (21 / 2) ⟨fun _ => 0, 0, 0⟩ ⟨fun _ => 0, 0⟩).1 =
          Int.floor ((16 : ℚ) * (21 / 2))) :=
  ⟨by norm_num,
   hardwareRandom32Bytes_success_return 32 (21 / 2) ⟨fun _ => 0, 0, 0⟩ ⟨fun _ => 0, 0⟩
     (by norm_num) (by simp)⟩

/-- C3: copy and cursor postcondition.  The cursor invariant (a multiple of
16, at most `SAMPLE_COUNT`) is preserved by every call, and every call that
reaches the copy phase copies, for each `i < 16`, the low byte of pool
sample `c + i` to `buffer[2i]` and its high byte to `buffer[2i+1]`
(little-endian), advances the cursor by exactly 16, and the copy-start
cursor `c` is a multiple of 16 with `c + 16 ≤ SAMPLE_COUNT` (using the
compile-time divisibility invariants, under which `SAMPLE_COUNT` is a
positive multiple of 16), so every pool read of the loop is in bounds. -/
theorem hardwareRandom32Bytes_copy_cursor (SC : Nat) (e : ℚ) (st : HwrngState)
    (o : FillOutcome) (hSC16 : 16 ∣ SC) (hSCpos : 0 < SC)
    (hdvd : 16 ∣ st.samples_consumed) (hle : st.samples_consumed ≤ SC) :
    (16 ∣ (hardwareRandom32Bytes SC e st o).2.2.samples_consumed ∧
      (hardwareRandom32Bytes SC e st o).2.2.samples_consumed ≤ SC) ∧
    (¬((st.samples_consumed = 0 ∨ SC ≤ st.samples_consumed) ∧ o.verdict ≠ 0) →
      ∃ c, 16 ∣ c ∧ c + 16 ≤ SC ∧
        (hardwareRandom32Bytes SC e st o).2.2.samples_consumed = c + 16 ∧
        ∀ i, i < 16 →
          (hardwareRandom32Bytes SC e st o).2.1 (i * 2) =
            some ((hardwareRandom32Bytes SC e st o).2.2.samples (c + i) % 256) ∧
          (hardwareRandom32Bytes SC e st o).2.1 (i * 2 + 1) =
            some ((hardwareRandom32Bytes SC e st o).2.2.samples (c + i) / 256 % 256)) := by
  have hSC : 16 ≤ SC := Nat.le_of_dvd hSCpos hSC16
  rcases step_cases SC e st o with ⟨h, h1, h2, h3, h4, h5⟩ | ⟨h, h1, h2, h3, h4, h5⟩ |
    ⟨h, h1, h2, h3, h4, h5⟩
  · rw [h4]
    exact ⟨⟨⟨0, rfl⟩, by omega⟩, fun hs => absurd h hs⟩
  · rw [h4, h2, h3, copyLoop_cursor]
    refine ⟨⟨⟨1, by omega⟩, by omega⟩, fun _ => ⟨0, ⟨0, rfl⟩, by omega, by omega, ?_⟩⟩
    intro i hi
    exact copyLoop_bytes _ 0 i hi
  · rw [h4, h2, h3, copyLoop_cursor]
    push_neg at h
    obtain ⟨k, hk⟩ := hdvd
    obtain ⟨m, hm⟩ := hSC16
    refine ⟨⟨⟨k + 1, by omega⟩, by omega⟩,
      fun _ => ⟨st.samples_consumed, ⟨k, hk⟩, by omega, by omega, ?_⟩⟩
    intro i hi
    exact copyLoop_bytes _ _ i hi

/-- Witness for C3: a concrete passing run over a 32-sample pool; the
cursor invariant at the output of the call follows from the theorem. -/
theorem hardwareRandom32Bytes_copy_cursor_witness :
    ((16 : Nat) ∣ 32 ∧ (0 : Nat) < 32) ∧
      (16 ∣ (hardwareRandom32Bytes 32 (21 / 2) ⟨fun _ => 0, 0, 0⟩
            ⟨fun _ => 0, 0⟩).2.2.samples_consumed ∧
        (hardwareRandom32Bytes 32 (21 / 2) ⟨fun _ => 0, 0, 0⟩
            ⟨fun _ => 0, 0⟩).2.2.samples_consumed ≤ 32) :=
  ⟨⟨by norm_num, by norm_num⟩,
   (hardwareRandom32Bytes_copy_cursor 32 (21 / 2) ⟨fun _ => 0, 0, 0⟩ ⟨fun _ => 0, 0⟩
      (by norm_num) (by norm_num) (by norm_num) (by norm_num)).1⟩

/-- C1: pool integrity (production build).  The invariant "a non-zero
cursor implies the most recent qualification run passed" is preserved by
every call; every call returning a non-negative value emits, as its 32
output bytes, the next 16 unconsumed little-endian samples of the current
pool — a pool whose most recent qualification run had verdict 0 — and a
call whose run fails returns a negative value and leaves the cursor at 0,
so the next call performs a fresh run and no sample of a failed pool is
ever emitted. -/
theorem hardwareRandom32Bytes_pool_integrity (SC : Nat) (e : ℚ) (st : HwrngState)
    (o : FillOutcome) (he : 0 ≤ e) (hinv : poolInvariant st) :
    poolInvariant (hardwareRandom32Bytes SC e st o).2.2 ∧
    (0 ≤ (hardwareRandom32Bytes SC e st o).1 →
      (hardwareRandom32Bytes SC e st o).2.2.lastVerdict = 0 ∧
      ∃ c, (hardwareRandom32Bytes SC e st o).2.2.samples_consumed = c + 16 ∧
        ∀ i, i < 16 →
          (hardwareRandom32Bytes SC e st o).2.1 (i * 2) =
            some ((hardwareRandom32Bytes SC e st o).2.2.samples (c + i) % 256) ∧
          (hardwareRandom32Bytes SC e st o).2.1 (i * 2 + 1) =
            some ((hardwareRandom32Bytes SC e st o).2.2.samples (c + i) / 256 % 256)) ∧
    (((st.samples_consumed = 0 ∨ SC ≤ st.samples_consumed) ∧ o.verdict ≠ 0) →
      (hardwareRandom32Bytes SC e st o).1 < 0 ∧
      (hardwareRandom32Bytes SC e st o).2.2.samples_consumed = 0) := by
  rcases step_cases SC e st o with ⟨h, h1, h2, h3, h4, h5⟩ | ⟨h, h1, h2, h3, h4, h5⟩ |
    ⟨h, h1, h2, h3, h4, h5⟩
  · have hneg : (hardwareRandom32Bytes SC e st o).1 < 0 := by rw [h1]; decide
    refine ⟨?_, fun hge => absurd hge (by omega), fun _ => ⟨hneg, h4⟩⟩
    intro hc
    rw [h4] at hc
    exact absurd rfl hc
  · rw [h2, h3, h4, copyLoop_cursor]
    refine ⟨fun _ => h5.trans h.2, fun _ => ⟨h5.trans h.2, 0, by omega, ?_⟩,
      fun hf => absurd h.2 hf.2⟩
    intro i hi
    exact copyLoop_bytes _ 0 i hi
  · rw [h2, h3, h4, copyLoop_cursor]
    have hne : st.samples_consumed ≠ 0 := fun h0 => h (Or.inl h0)
    refine ⟨fun _ => h5.trans (hinv hne), fun _ => ⟨h5.trans (hinv hne),
      st.samples_consumed, rfl, ?_⟩, fun hf => absurd hf.1 h⟩
    intro i hi
    exact copyLoop_bytes _ _ i hi

/-- Witness for C1: a concrete passing run; the preserved invariant and the
vetted-pool verdict at the output follow from the theorem. -/
theorem hardwareRandom32Bytes_pool_integrity_witness :
    poolInvariant (hardwareRandom32Bytes 32 (21 / 2) ⟨fun _ => 0, 0, 0⟩
        ⟨fun _ => 0, 0⟩).2.2 ∧
      (hardwareRandom32Bytes 32 (21 / 2) ⟨fun _ => 0, 0, 0⟩
          ⟨fun _ => 0, 0⟩).2.2.lastVerdict = 0 :=
  ⟨(hardwareRandom32Bytes_pool_integrity 32 (21 / 2) ⟨fun _ => 0, 0, 0⟩ ⟨fun _ => 0, 0⟩
      (by norm_num) (fun h0 => absurd rfl h0)).1,
   ((hardwareRandom32Bytes_pool_integrity 32 (21 / 2) ⟨fun _ => 0, 0, 0⟩ ⟨fun _ => 0, 0⟩
      (by norm_num) (fun h0 => absurd rfl h0)).2.1
      (by norm_num [hardwareRandom32Bytes, fillAndTestSamplesArray, entropyReturnValue])).1⟩

theorem or_mask_self (x mask : Nat) : (x ||| mask) &&& mask = mask := by
  apply Nat.eq_of_testBit_eq
  intro j
  simp only [Nat.testBit_and, Nat.testBit_or]
  cases Nat.testBit mask j <;> simp

theorem or_preserves_mask (a b mask : Nat) (h : a &&& mask = mask) :
    (a ||| b) &&& mask = mask := by
  apply Nat.eq_of_testBit_eq
  intro j
  have hj := congrArg (fun x => Nat.testBit x j) h
  simp only [Nat.testBit_and, Nat.testBit_or] at hj ⊢
  cases hm : Nat.testBit mask j <;> rw [hm] at hj <;> simp_all

theorem or_preserves_mask_right (a b mask : Nat) (h : b &&& mask = mask) :
    (a ||| b) &&& mask = mask := by
  apply Nat.eq_of_testBit_eq
  intro j
  have hj := congrArg (fun x => Nat.testBit x j) h
  simp only [Nat.testBit_and, Nat.testBit_or] at hj ⊢
  cases hm : Nat.testBit mask j <;> rw [hm] at hj <;> simp_all

theorem or_mask_zero (a b mask : Nat) (ha : a &&& mask = 0) (hb : b &&& mask = 0) :
    (a ||| b) &&& mask = 0 := by
  apply Nat.eq_of_testBit_eq
  intro j
  have hja := congrArg (fun x => Nat.testBit x j) ha
  have hjb := congrArg (fun x => Nat.testBit x j) hb
  simp only [Nat.testBit_and, Nat.testBit_or, Nat.zero_testBit] at hja hjb ⊢
  cases hm : Nat.testBit mask j <;> rw [hm] at hja hjb <;> simp_all

theorem setBits_preserves_mask (t : Nat) (c : Prop) [Decidable c] (b mask : Nat)
    (h : t &&& mask = mask) : setBits t c b &&& mask = mask := by
  unfold setBits
  split
  · exact or_preserves_mask t b mask h
  · exact h

theorem setBits_mask_zero (t : Nat) (c : Prop) [Decidable c] (b mask : Nat)
    (ht : t &&& mask = 0) (hb : b &&& mask = 0) : setBits t c b &&& mask = 0 := by
  unfold setBits
  split
  · exact or_mask_zero t b mask ht hb
  · exact ht

theorem setBits_of_true {c : Prop} [Decidable c] (t b : Nat) (h : c) :
    setBits t c b = t ||| b := if_pos h

theorem setBits_of_false {c : Prop} [Decidable c] (t b : Nat) (h : ¬c) :
    setBits t c b = t := if_neg h

theorem histogramTestsFailed_overflow_mask
    (mean variance kappa3 kappa4 entropy_estimate : Int)
    (moment_error_occurred histogram_overflow_occurred entropy_error_occurred : Bool)
    (minMeanF16 maxMeanF16 minVarF16 maxVarF16 smaxSqF16
      minKurtF16 maxKurtF16 minEntropyF16 : Int)
    (h : (moment_error_occurred || histogram_overflow_occurred) = true) :
    histogramTestsFailed mean variance kappa3 kappa4 entropy_estimate
        moment_error_occurred histogram_overflow_occurred entropy_error_occurred
        minMeanF16 maxMeanF16 minVarF16 maxVarF16 smaxSqF16
        minKurtF16 maxKurtF16 minEntropyF16 &&& 15 = 15 := by
  unfold histogramTestsFailed
  apply setBits_preserves_mask
  apply setBits_preserves_mask
  rw [setBits_of_true _ _ h]
  exact or_mask_self _ 15

theorem histogramTestsFailed_entropy_mask
    (mean variance kappa3 kappa4 entropy_estimate : Int)
    (moment_error_occurred histogram_overflow_occurred entropy_error_occurred : Bool)
    (minMeanF16 maxMeanF16 minVarF16 maxVarF16 smaxSqF16
      minKurtF16 maxKurtF16 minEntropyF16 : Int)
    (h : entropy_error_occurred = true) :
    histogramTestsFailed mean variance kappa3 kappa4 entropy_estimate
        moment_error_occurred histogram_overflow_occurred entropy_error_occurred
        minMeanF16 maxMeanF16 minVarF16 maxVarF16 smaxSqF16
        minKurtF16 maxKurtF16 minEntropyF16 &&& 128 = 128 := by
  unfold histogramTestsFailed
  rw [setBits_of_true _ _ h]
  exact or_mask_self _ 128

theorem fftTestsFailed_psd_mask (variance : Int) (psd : Nat → Int) (n : Nat)
    (bwThreshF16 : Int) (reps : Nat) (corr : Nat → Int) (startLag : Nat)
    (autocorrelation_error_occurred psd_accumulator_error_occurred : Bool)
    (minPeakF16 maxPeakF16 minBwF16 autocorrThreshF16 : Int)
    (h : psd_accumulator_error_occurred = true) :
    fftTestsFailed variance psd n bwThreshF16 reps corr startLag
        autocorrelation_error_occurred psd_accumulator_error_occurred
        minPeakF16 maxPeakF16 minBwF16 autocorrThreshF16 &&& 48 = 48 := by
  unfold fftTestsFailed
  apply setBits_preserves_mask
  apply setBits_preserves_mask
  rw [setBits_of_true _ _ h]
  exact or_mask_self _ 48

/-- C7: overflow-to-verdict mapping.  In every qualification run (combined
verdict `histogramTestsFailed ||| fftTestsFailed`): if the fixed-point
sticky flag was set during the central-moment computations or the histogram
overflow flag is set, verdict bits 0-3 are all set; if the sticky flag was
set during the entropy estimate, bit 7 is set; and if the PSD accumulator's
overflow flag is set, bits 4 and 5 are both set. -/
theorem qualificationVerdict_overflow_bits
    (mean variance kappa3 kappa4 entropy_estimate : Int)
    (moment_error_occurred histogram_overflow_occurred entropy_error_occurred : Bool)
    (minMeanF16 maxMeanF16 minVarF16 maxVarF16 smaxSqF16
      minKurtF16 maxKurtF16 minEntropyF16 : Int)
    (psd : Nat → Int) (n : Nat) (bwThreshF16 : Int) (reps : Nat)
    (corr : Nat → Int) (startLag : Nat)
    (autocorrelation_error_occurred psd_accumulator_error_occurred : Bool)
    (minPeakF16 maxPeakF16 minBwF16 autocorrThreshF16 : Int) :
    ((moment_error_occurred || histogram_overflow_occurred) = true →
      qualificationVerdict mean variance kappa3 kappa4 entropy_estimate
          moment_error_occurred histogram_overflow_occurred entropy_error_occurred
          minMeanF16 maxMeanF16 minVarF16 maxVarF16 smaxSqF16
          minKurtF16 maxKurtF16 minEntropyF16 psd n bwThreshF16 reps corr startLag
          autocorrelation_error_occurred psd_accumulator_error_occurred
          minPeakF16 maxPeakF16 minBwF16 autocorrThreshF16 &&& 15 = 15) ∧
    (entropy_error_occurred = true →
      qualificationVerdict mean variance kappa3 kappa4 entropy_estimate
          moment_error_occurred histogram_overflow_occurred entropy_error_occurred
          minMeanF16 maxMeanF16 minVarF16 maxVarF16 smaxSqF16
          minKurtF16 maxKurtF16 minEntropyF16 psd n bwThreshF16 reps corr startLag
          autocorrelation_error_occurred psd_accumulator_error_occurred
          minPeakF16 maxPeakF16 minBwF16 autocorrThreshF16 &&& 128 = 128) ∧
    (psd_accumulator_error_occurred = true →
      qualificationVerdict mean variance kappa3 kappa4 entropy_estimate
          moment_error_occurred histogram_overflow_occurred entropy_error_occurred
          minMeanF16 maxMeanF16 minVarF16 maxVarF16 smaxSqF16
          minKurtF16 maxKurtF16 minEntropyF16 psd n bwThreshF16 reps corr startLag
          autocorrelation_error_occurred psd_accumulator_error_occurred
          minPeakF16 maxPeakF16 minBwF16 autocorrThreshF16 &&& 48 = 48) := by
  unfold qualificationVerdict
  refine ⟨fun h => ?_, fun h => ?_, fun h => ?_⟩
  · exact or_preserves_mask _ _ _
      (histogramTestsFailed_overflow_mask mean variance kappa3 kappa4 entropy_estimate
        moment_error_occurred histogram_overflow_occurred entropy_error_occurred
        minMeanF16 maxMeanF16 minVarF16 maxVarF16 smaxSqF16
        minKurtF16 maxKurtF16 minEntropyF16 h)
  · exact or_preserves_mask _ _ _
      (histogramTestsFailed_entropy_mask mean variance kappa3 kappa4 entropy_estimate
        moment_error_occurred histogram_overflow_occurred entropy_error_occurred
        minMeanF16 maxMeanF16 minVarF16 maxVarF16 smaxSqF16
        minKurtF16 maxKurtF16 minEntropyF16 h)
  · exact or_preserves_mask_right _ _ _
      (fftTestsFailed_psd_mask variance psd n bwThreshF16 reps corr startLag
        autocorrelation_error_occurred psd_accumulator_error_occurred
        minPeakF16 maxPeakF16 minBwF16 autocorrThreshF16 h)

/-- Witness for C7 at a concrete run (all statistics zero, all flags set,
FFT size 4, two threshold repetitions, start lag 1): the verdict has bits
0-3, bit 7, and bits 4-5 set. -/
theorem qualificationVerdict_overflow_bits_witness :
    qualificationVerdict 0 0 0 0 0 true true true 0 0 0 0 0 0 0 0
        (fun _ => 0) 4 0 2 (fun _ => 0) 1 true true 0 0 0 0 &&& 15 = 15 ∧
      qualificationVerdict 0 0 0 0 0 true true true 0 0 0 0 0 0 0 0
        (fun _ => 0) 4 0 2 (fun _ => 0) 1 true true 0 0 0 0 &&& 128 = 128 ∧
      qualificationVerdict 0 0 0 0 0 true true true 0 0 0 0 0 0 0 0
        (fun _ => 0) 4 0 2 (fun _ => 0) 1 true true 0 0 0 0 &&& 48 = 48 :=
  ⟨(qualificationVerdict_overflow_bits 0 0 0 0 0 true true true 0 0 0 0 0 0 0 0
      (fun _ => 0) 4 0 2 (fun _ => 0) 1 true true 0 0 0 0).1 rfl,
   (qualificationVerdict_overflow_bits 0 0 0 0 0 true true true 0 0 0 0 0 0 0 0
      (fun _ => 0) 4 0 2 (fun _ => 0) 1 true true 0 0 0 0).2.1 rfl,
   (qualificationVerdict_overflow_bits 0 0 0 0 0 true true true 0 0 0 0 0 0 0 0
      (fun _ => 0) 4 0 2 (fun _ => 0) 1 true true 0 0 0 0).2.2 rfl⟩

theorem findMaxAutoCorrAux_gt_iff (buf : Nat → Int) (t : Int) :
    ∀ (fuel i : Nat) (m : Int),
      t < findMaxAutoCorrAux buf fuel i m ↔
        t < m ∨ ∃ k, i ≤ k ∧ k < i + fuel ∧ t < |buf k| := by
  intro fuel
  induction fuel with
  | zero =>
      intro i m
      rw [findMaxAutoCorrAux]
      constructor
      · exact Or.inl
      · rintro (h | ⟨k, h1, h2, _⟩)
        · exact h
        · omega
  | succ fuel ih =>
      intro i m
      have habs : (if buf i < 0 then -(buf i) else buf i) = |buf i| := by
        split
        · exact (abs_of_neg (by assumption)).symm
        · exact (abs_of_nonneg (le_of_not_lt (by assumption))).symm
      have hmax : (if m < |buf i| then |buf i| else m) = max m |buf i| := by
        rcases le_total m |buf i| with h | h
        · rw [max_eq_right h]; split <;> omega
        · rw [max_eq_left h]; split <;> omega
      have hstep : findMaxAutoCorrAux buf (fuel + 1) i m =
          findMaxAutoCorrAux buf fuel (i + 1) (max m |buf i|) := by
        rw [findMaxAutoCorrAux]
        simp only [habs, hmax]
      rw [hstep, ih, lt_max_iff]
      constructor
      · rintro ((h | h) | ⟨k, h1, h2, h3⟩)
        · exact Or.inl h
        · exact Or.inr ⟨i, le_refl i, by omega, h⟩
        · exact Or.inr ⟨k, by omega, by omega, h3⟩
      · rintro (h | ⟨k, h1, h2, h3⟩)
        · exact Or.inl (Or.inl h)
        · by_cases hki : k = i
          · subst hki
            exact Or.inl (Or.inr h3)
          · exact Or.inr ⟨k, by omega, by omega, h3⟩

theorem findMaximumAutoCorrelation_gt_iff (buf : Nat → Int) (t : Int)
    (startLag n : Nat) (hs : startLag ≤ n) :
    t < findMaximumAutoCorrelation buf startLag n ↔
      ∃ k, startLag ≤ k ∧ k ≤ n ∧ t < |buf k| := by
  unfold findMaximumAutoCorrelation
  rw [findMaxAutoCorrAux_gt_iff]
  constructor
  · rintro (h | ⟨k, h1, h2, h3⟩)
    · exact ⟨startLag, le_refl _, hs, lt_of_lt_of_le h (abs_nonneg _)⟩
    · exact ⟨k, h1, by omega, h3⟩
  · rintro ⟨k, h1, h2, h3⟩
    exact Or.inr ⟨k, h1, by omega, h3⟩

/-- C8: autocorrelation test.  In every qualification run, verdict bit 6 of
`fftTestsFailed` is set if and only if either some lag `k` in
`[AUTOCORR_START_LAG, FFT_SIZE]` has `|correlogram real part|` exceeding
`fix16_mul variance AUTOCORR_THRESHOLD` (i.e. the maximum of
`findMaximumAutoCorrelation` exceeds the threshold), or the fixed-point
sticky error flag was set during the autocorrelation computation. -/
theorem fftTestsFailed_bit6_iff (variance : Int) (psd : Nat → Int) (n : Nat)
    (bwThreshF16 : Int) (reps : Nat) (corr : Nat → Int) (startLag : Nat)
    (autocorrelation_error_occurred psd_accumulator_error_occurred : Bool)
    (minPeakF16 maxPeakF16 minBwF16 autocorrThreshF16 : Int)
    (hs : startLag ≤ n) :
    fftTestsFailed variance psd n bwThreshF16 reps corr startLag
        autocorrelation_error_occurred psd_accumulator_error_occurred
        minPeakF16 maxPeakF16 minBwF16 autocorrThreshF16 &&& 64 = 64 ↔
      ((∃ k, startLag ≤ k ∧ k ≤ n ∧
          fix16_mul variance autocorrThreshF16 < |corr k|) ∨
        autocorrelation_error_occurred = true) := by
  have hiff := findMaximumAutoCorrelation_gt_iff corr
    (fix16_mul variance autocorrThreshF16) startLag n hs
  unfold fftTestsFailed
  have hY : setBits
      (setBits
        (setBits
          (setBits 0
            (fix16_from_int ((estimateBandwidth psd n bwThreshF16 reps).2 : Int) <
              minPeakF16) 16)
          (maxPeakF16 <
            fix16_from_int ((estimateBandwidth psd n bwThreshF16 reps).2 : Int)) 16)
        (fix16_from_int (estimateBandwidth psd n bwThreshF16 reps).1 < minBwF16) 32)
      (psd_accumulator_error_occurred = true) 48 &&& 64 = 0 := by
    apply setBits_mask_zero
    apply setBits_mask_zero
    apply setBits_mask_zero
    apply setBits_mask_zero
    all_goals decide
  by_cases h5 : fix16_mul variance autocorrThreshF16 <
      findMaximumAutoCorrelation corr startLag n
  · rw [setBits_of_true _ _ h5]
    constructor
    · intro _
      exact Or.inl (hiff.mp h5)
    · intro _
      apply setBits_preserves_mask
      exact or_mask_self _ 64
  · rw [setBits_of_false _ _ h5]
    by_cases h6 : autocorrelation_error_occurred = true
    · rw [setBits_of_true _ _ h6]
      constructor
      · intro _
        exact Or.inr h6
      · intro _
        exact or_mask_self _ 64
    · rw [setBits_of_false _ _ h6, hY]
      constructor
      · intro h
        exact absurd h (by decide)
      · rintro (hex | herr)
        · exact absurd (hiff.mpr hex) h5
        · exact absurd herr h6

/-- Witness for C8: with start lag 1, FFT size 4, zero correlogram and a
set autocorrelation sticky flag, bit 6 is set. -/
theorem fftTestsFailed_bit6_iff_witness :
    fftTestsFailed 0 (fun _ => 0) 4 0 2 (fun _ => 0) 1 true false 0 0 0 0 &&& 64 = 64 :=
  (fftTestsFailed_bit6_iff 0 (fun _ => 0) 4 0 2 (fun _ => 0) 1 true false 0 0 0 0
    (by norm_num)).mpr (Or.inr rfl)

/-- C9 (amended): skewness threshold algebra in exact arithmetic.  For
`σ > 0` and `s ≥ 0`, the squared-form comparison
`κ₃² ≥ (σ²)³ · s²` — the algebraic form implemented by
`histogramTestsFailed` — holds iff `|κ₃| / σ³ ≥ s`.  (In Q16.16 arithmetic
the equivalence can fail at rounding boundaries; see the counterexample.) -/
theorem skewnessTestExact_iff (σ s k3 : ℚ) (hσ : 0 < σ) (hs : 0 ≤ s) :
    skewnessTestExact (σ ^ 2) k3 (s ^ 2) ↔ s ≤ |k3| / σ ^ 3 := by
  unfold skewnessTestExact
  have h3 : (0 : ℚ) < σ ^ 3 := by positivity
  rw [le_div_iff₀ h3]
  have hsq : (σ ^ 2) ^ 3 * s ^ 2 = (σ ^ 3 * s) ^ 2 := by ring
  rw [hsq, sq_le_sq, abs_of_nonneg (mul_nonneg (le_of_lt h3) hs), mul_comm]

/-- Witness for the amended C9 at `σ = 1`, `s = 2`, `κ₃ = 3`. -/
theorem skewnessTestExact_iff_witness :
    ((0 : ℚ) < 1 ∧ (0 : ℚ) ≤ 2) ∧
      (skewnessTestExact ((1 : ℚ) ^ 2) 3 ((2 : ℚ) ^ 2) ↔
        (2 : ℚ) ≤ |(3 : ℚ)| / (1 : ℚ) ^ 3) :=
  ⟨⟨by norm_num, by norm_num⟩, skewnessTestExact_iff 1 2 3 (by norm_num) (by norm_num)⟩

/-- Counterexample to C9 as stated: with `STATTEST_MAX_SKEWNESS = 1`
(`F16(1·1) = 65536`), a histogram state with raw variance 1 (i.e.
`σ² = 2⁻¹⁶ > 0`, `σ = 1/256`) and `κ₃ = 0`, the squared-form test evaluated
in Q16.16 arithmetic by `histogramTestsFailed` triggers (`0 ≥ 0` after both
sides round to zero), yet `|κ₃|/σ³ = 0 < 1 = STATTEST_MAX_SKEWNESS`, so the
claimed "if and only if" fails at this input. -/
theorem skewnessTestQ16_rounding_counterexample :
    skewnessTestQ16 1 0 65536 = true ∧
      ((1 : ℚ) / 65536) = ((1 : ℚ) / 256) ^ 2 ∧
      ¬ ((1 : ℚ) ≤ |(0 : ℚ)| / ((1 : ℚ) / 256) ^ 3) :=
  ⟨by decide, by norm_num, by norm_num⟩

theorem findGreatest_congr (P Q : Nat → Prop) [DecidablePred P] [DecidablePred Q]
    (h : ∀ k, P k ↔ Q k) : ∀ n, Nat.findGreatest P n = Nat.findGreatest Q n := by
  intro n
  induction n with
  | zero => rfl
  | succ n ih =>
      rw [Nat.findGreatest_succ, Nat.findGreatest_succ, ih]
      by_cases hq : Q (n + 1)
      · rw [if_pos ((h (n + 1)).mpr hq), if_pos hq]
      · rw [if_neg (fun hp => hq ((h (n + 1)).mp hp)), if_neg hq]

theorem find_congr_iff (p q : Nat → Prop) [DecidablePred p] [DecidablePred q]
    (h : ∀ k, p k ↔ q k) (hp : ∃ k, p k) (hq : ∃ k, q k) :
    Nat.find hp = Nat.find hq :=
  le_antisymm (Nat.find_min' hp ((h _).mpr (Nat.find_spec hq)))
    (Nat.find_min' hq ((h _).mp (Nat.find_spec hp)))

theorem leftSearch_eq (psd : Nat → Int) (t : Int) (reps : Nat) :
    ∀ i c, c < reps → (∀ d, 1 ≤ d → d ≤ c → psd (i + d) < t) →
      leftSearch psd t reps i c =
        if ∃ j, leftTrigger psd t reps (i + c + 1) j then
          Nat.findGreatest (leftTrigger psd t reps (i + c + 1)) i + reps
        else 0 := by
  intro i
  induction i with
  | zero =>
      intro c hc hcred
      rw [leftSearch]
      by_cases hp : psd 0 < t
      · rw [if_pos hp]
        by_cases hr : reps ≤ c + 1
        · rw [if_pos hr]
          have hP : leftTrigger psd t reps (0 + c + 1) 0 := by
            constructor
            · omega
            · intro d hd
              rcases Nat.eq_zero_or_pos d with h0 | h1
              · subst h0; simpa using hp
              · exact hcred d h1 (by omega)
          rw [if_pos ⟨0, hP⟩, Nat.findGreatest_eq hP]
        · rw [if_neg hr, if_neg ?_]
          rintro ⟨j, hj1, _⟩
          omega
      · rw [if_neg hp]
        have h0 : ¬ reps ≤ 0 := by omega
        rw [if_neg h0, if_neg ?_]
        rintro ⟨j, hj1, hjW⟩
        have hj0 : j = 0 := by omega
        subst hj0
        exact hp (by simpa using hjW 0 (by omega))
  | succ i' ih =>
      intro c hc hcred
      rw [leftSearch]
      by_cases hp : psd (i' + 1) < t
      · rw [if_pos hp]
        by_cases hr : reps ≤ c + 1
        · rw [if_pos hr]
          have hP : leftTrigger psd t reps (i' + 1 + c + 1) (i' + 1) := by
            constructor
            · omega
            · intro d hd
              rcases Nat.eq_zero_or_pos d with h0 | h1
              · subst h0; simpa using hp
              · exact hcred d h1 (by omega)
          rw [if_pos ⟨_, hP⟩, Nat.findGreatest_eq hP]
        · rw [if_neg hr]
          have hcred' : ∀ d, 1 ≤ d → d ≤ c + 1 → psd (i' + d) < t := by
            intro d h1 h2
            rcases Nat.eq_or_lt_of_le h1 with h1' | h1'
            · rw [← h1']
              exact hp
            · rw [show i' + d = i' + 1 + (d - 1) from by omega]
              exact hcred (d - 1) (by omega) (by omega)
          rw [ih (c + 1) (by omega) hcred',
            show i' + (c + 1) + 1 = i' + 1 + c + 1 from by omega]
          have hnP : ¬ leftTrigger psd t reps (i' + 1 + c + 1) (i' + 1) := by
            rintro ⟨h1, _⟩
            omega
          by_cases hEx : ∃ j, leftTrigger psd t reps (i' + 1 + c + 1) j
          · rw [if_pos hEx, if_pos hEx, Nat.findGreatest_succ, if_neg hnP]
          · rw [if_neg hEx, if_neg hEx]
      · rw [if_neg hp]
        have h0 : ¬ reps ≤ 0 := by omega
        rw [if_neg h0]
        rw [ih 0 (by omega) (by intro d h1 h2; omega),
          show i' + 0 + 1 = i' + 1 from by omega]
        have hPQ : ∀ j, leftTrigger psd t reps (i' + 1 + c + 1) j ↔
            leftTrigger psd t reps (i' + 1) j := by
          intro j
          constructor
          · rintro ⟨h1, hW⟩
            refine ⟨?_, hW⟩
            by_contra hgt
            by_cases hji : j ≤ i' + 1
            · have hd : i' + 1 - j < reps := by omega
              have hx := hW (i' + 1 - j) hd
              rw [show j + (i' + 1 - j) = i' + 1 from by omega] at hx
              exact hp hx
            · omega
          · rintro ⟨h1, hW⟩
            exact ⟨by omega, hW⟩
        have hnP : ¬ leftTrigger psd t reps (i' + 1 + c + 1) (i' + 1) := by
          rintro ⟨_, hW⟩
          exact hp (by simpa using hW 0 (by omega))
        by_cases hEx : ∃ j, leftTrigger psd t reps (i' + 1) j
        · have hEx' : ∃ j, leftTrigger psd t reps (i' + 1 + c + 1) j := by
            obtain ⟨j, hj⟩ := hEx
            exact ⟨j, (hPQ j).mpr hj⟩
          rw [if_pos hEx, if_pos hEx', Nat.findGreatest_succ, if_neg hnP,
            findGreatest_congr _ _ hPQ i']
        · rw [if_neg hEx, if_neg (fun hx => hEx (by
            obtain ⟨j, hj⟩ := hx
            exact ⟨j, (hPQ j).mp hj⟩))]

theorem rightSearch_eq (psd : Nat → Int) (t : Int) (reps n : Nat) :
    ∀ fuel i c, fuel + i = n + 1 → c < reps → c ≤ i →
      (∀ d, 1 ≤ d → d ≤ c → psd (i - d) < t) →
      rightSearch psd t reps n fuel i c =
        if h : ∃ j, rightTrigger psd t reps n i c j then (Nat.find h : Int) - 1
        else (n : Int) := by
  intro fuel
  induction fuel with
  | zero =>
      intro i c hfi hc hci hcred
      rw [rightSearch, dif_neg ?_]
      rintro ⟨j, hj1, hj2, _⟩
      omega
  | succ fuel ih =>
      intro i c hfi hc hci hcred
      rw [rightSearch]
      by_cases hp : psd i < t
      · rw [if_pos hp]
        by_cases hr : reps ≤ c + 1
        · rw [if_pos hr]
          have hrc : reps = c + 1 := by omega
          have hP : rightTrigger psd t reps n i c (i - c) := by
            refine ⟨by omega, by omega, ?_⟩
            intro d hd
            by_cases hdc : d = c
            · rw [show i - c + d = i from by omega]
              exact hp
            · rw [show i - c + d = i - (c - d) from by omega]
              exact hcred (c - d) (by omega) (by omega)
          have hEx : ∃ j, rightTrigger psd t reps n i c j := ⟨i - c, hP⟩
          rw [dif_pos hEx]
          have hfind : Nat.find hEx = i - c := by
            rw [Nat.find_eq_iff]
            refine ⟨hP, ?_⟩
            intro m hm hPm
            have := hPm.1
            omega
          rw [hfind]
          omega
        · rw [if_neg hr]
          have hcred' : ∀ d, 1 ≤ d → d ≤ c + 1 → psd (i + 1 - d) < t := by
            intro d h1 h2
            rcases Nat.eq_or_lt_of_le h1 with h1' | h1'
            · rw [show i + 1 - d = i from by omega]
              exact hp
            · rw [show i + 1 - d = i - (d - 1) from by omega]
              exact hcred (d - 1) (by omega) (by omega)
          rw [ih (i + 1) (c + 1) (by omega) (by omega) (by omega) hcred']
          have hPQ : ∀ j, rightTrigger psd t reps n (i + 1) (c + 1) j ↔
              rightTrigger psd t reps n i c j := by
            intro j
            unfold rightTrigger
            constructor
            · rintro ⟨h1, h2, h3⟩
              exact ⟨by omega, h2, h3⟩
            · rintro ⟨h1, h2, h3⟩
              exact ⟨by omega, h2, h3⟩
          by_cases hEx : ∃ j, rightTrigger psd t reps n i c j
          · have hEx' : ∃ j, rightTrigger psd t reps n (i + 1) (c + 1) j := by
              obtain ⟨j, hj⟩ := hEx
              exact ⟨j, (hPQ j).mpr hj⟩
            rw [dif_pos hEx', dif_pos hEx, find_congr_iff _ _ hPQ hEx' hEx]
          · rw [dif_neg (fun hx => hEx (by
                obtain ⟨j, hj⟩ := hx
                exact ⟨j, (hPQ j).mp hj⟩)),
              dif_neg hEx]
      · rw [if_neg hp]
        have h0 : ¬ reps ≤ 0 := by omega
        rw [if_neg h0]
        rw [ih (i + 1) 0 (by omega) (by omega) (by omega) (by intro d h1 h2; omega)]
        have hPQ : ∀ j, rightTrigger psd t reps n (i + 1) 0 j ↔
            rightTrigger psd t reps n i c j := by
          intro j
          unfold rightTrigger
          constructor
          · rintro ⟨h1, h2, h3⟩
            exact ⟨by omega, h2, h3⟩
          · rintro ⟨h1, h2, h3⟩
            refine ⟨?_, h2, h3⟩
            by_contra hgt
            have hd : i - j < reps := by omega
            have hx := h3 (i - j) hd
            rw [show j + (i - j) = i from by omega] at hx
            exact hp hx
        by_cases hEx : ∃ j, rightTrigger psd t reps n i c j
        · have hEx' : ∃ j, rightTrigger psd t reps n (i + 1) 0 j := by
            obtain ⟨j, hj⟩ := hEx
            exact ⟨j, (hPQ j).mpr hj⟩
          rw [dif_pos hEx', dif_pos hEx, find_congr_iff _ _ hPQ hEx' hEx]
        · rw [dif_neg (fun hx => hEx (by
              obtain ⟨j, hj⟩ := hx
              exact ⟨j, (hPQ j).mp hj⟩)),
            dif_neg hEx]

theorem psdPeakSearchAux_attains (psd : Nat → Int) :
    ∀ fuel i acc, psdPeakSearchAux psd fuel i acc = acc ∨
      (psd (psdPeakSearchAux psd fuel i acc).2 = (psdPeakSearchAux psd fuel i acc).1 ∧
        i ≤ (psdPeakSearchAux psd fuel i acc).2 ∧
        (psdPeakSearchAux psd fuel i acc).2 < i + fuel) := by
  intro fuel
  induction fuel with
  | zero =>
      intro i acc
      left
      rw [psdPeakSearchAux]
  | succ fuel ih =>
      intro i acc
      rw [psdPeakSearchAux]
      rcases ih (i + 1) (if acc.1 < psd i then (psd i, i) else acc) with h | h
      · rw [h]
        by_cases hup : acc.1 < psd i
        · rw [if_pos hup]
          right
          exact ⟨rfl, by omega, by omega⟩
        · rw [if_neg hup]
          left
          rfl
      · right
        exact ⟨h.1, by omega, by omega⟩

theorem psdPeakSearchAux_ub (psd : Nat → Int) :
    ∀ fuel i acc, (∀ l, l < i → psd l ≤ acc.1) →
      ∀ l, l < i + fuel → psd l ≤ (psdPeakSearchAux psd fuel i acc).1 := by
  intro fuel
  induction fuel with
  | zero =>
      intro i acc hpre l hl
      rw [psdPeakSearchAux]
      exact hpre l (by omega)
  | succ fuel ih =>
      intro i acc hpre l hl
      rw [psdPeakSearchAux]
      refine ih (i + 1) _ ?_ l (by omega)
      intro l' hl'
      by_cases hup : acc.1 < psd i
      · rw [if_pos hup]
        rcases Nat.lt_succ_iff_lt_or_eq.mp hl' with h | h
        · exact le_of_lt (lt_of_le_of_lt (hpre l' h) hup)
        · subst h
          exact le_refl _
      · rw [if_neg hup]
        rcases Nat.lt_succ_iff_lt_or_eq.mp hl' with h | h
        · exact hpre l' h
        · subst h
          exact le_of_not_lt hup

theorem psdPeakSearch_spec (psd : Nat → Int) (n : Nat)
    (hnn : ∀ i, i ≤ n → 0 ≤ psd i) :
    (psdPeakSearch psd n).2 ≤ n ∧
      psd (psdPeakSearch psd n).2 = (psdPeakSearch psd n).1 ∧
      (∀ l, l ≤ n → psd l ≤ (psdPeakSearch psd n).1) := by
  have heq : psdPeakSearch psd n = psdPeakSearchAux psd (n + 1) 0 (0, 0) := rfl
  rw [heq]
  have hub : ∀ l, l ≤ n → psd l ≤ (psdPeakSearchAux psd (n + 1) 0 (0, 0)).1 := by
    intro l hl
    exact psdPeakSearchAux_ub psd (n + 1) 0 (0, 0) (by intro l' hl'; omega) l (by omega)
  rcases psdPeakSearchAux_attains psd (n + 1) 0 (0, 0) with h | h
  · rw [h]
    refine ⟨Nat.zero_le n, le_antisymm ?_ (hnn 0 (Nat.zero_le n)), ?_⟩
    · have hx := hub 0 (Nat.zero_le n)
      rwa [h] at hx
    · intro l hl
      have hx := hub l hl
      rwa [h] at hx
  · exact ⟨by have := h.2.2; omega, h.1, hub⟩

/-- C6: bandwidth estimator.  For every PSD accumulator state with
non-negative bins (PSD bins are accumulated squared magnitudes) and
`PSD_THRESHOLD_REPETITIONS ≥ 1`, `estimateBandwidth` returns
`right − left` where, with threshold `fix16_mul peak F16(PSD_BANDWIDTH_THRESHOLD)`
for `peak` the maximum bin value (attained at the returned `max_bin`):
`left` is `leftEdgeSpec` — the walk from `max_bin` down toward 0 counting a
streak of consecutive bins strictly below threshold (reset on any bin at or
above it), giving `i + reps` at the greatest trigger window and 0 if none —
and `right` is `rightEdgeSpec`, the symmetric walk up to `FFT_SIZE` giving
`i − reps` at the earliest trigger window and `FFT_SIZE` if none. -/
theorem estimateBandwidth_spec (psd : Nat → Int) (n : Nat) (bwThreshF16 : Int)
    (reps : Nat) (hreps : 1 ≤ reps) (hnn : ∀ i, i ≤ n → 0 ≤ psd i) :
    ∃ peak,
      (estimateBandwidth psd n bwThreshF16 reps).2 ≤ n ∧
      psd (estimateBandwidth psd n bwThreshF16 reps).2 = peak ∧
      (∀ i, i ≤ n → psd i ≤ peak) ∧
      (estimateBandwidth psd n bwThreshF16 reps).1 =
        rightEdgeSpec psd (fix16_mul peak bwThreshF16) reps
          (estimateBandwidth psd n bwThreshF16 reps).2 n -
        (leftEdgeSpec psd (fix16_mul peak bwThreshF16) reps
          (estimateBandwidth psd n bwThreshF16 reps).2 : Int) := by
  obtain ⟨hmb, hatt, hub⟩ := psdPeakSearch_spec psd n hnn
  refine ⟨(psdPeakSearch psd n).1, hmb, hatt, hub, ?_⟩
  show rightSearch psd (fix16_mul (psdPeakSearch psd n).1 bwThreshF16) reps n
      (n + 1 - (psdPeakSearch psd n).2) (psdPeakSearch psd n).2 0 -
      ((leftSearch psd (fix16_mul (psdPeakSearch psd n).1 bwThreshF16) reps
        (psdPeakSearch psd n).2 0 : Nat) : Int) =
      rightEdgeSpec psd (fix16_mul (psdPeakSearch psd n).1 bwThreshF16) reps
        (psdPeakSearch psd n).2 n -
      (leftEdgeSpec psd (fix16_mul (psdPeakSearch psd n).1 bwThreshF16) reps
        (psdPeakSearch psd n).2 : Int)
  rw [leftSearch_eq psd _ reps (psdPeakSearch psd n).2 0 hreps
    (by intro d h1 h2; omega)]
  rw [rightSearch_eq psd _ reps n (n + 1 - (psdPeakSearch psd n).2)
    (psdPeakSearch psd n).2 0 (by omega) hreps (Nat.zero_le _)
    (by intro d h1 h2; omega)]
  unfold leftEdgeSpec rightEdgeSpec
  simp only [Nat.add_zero]

/-- Witness for C6: the all-zero PSD over FFT size 2 with one threshold
repetition; the characterization holds with peak 0. -/
theorem estimateBandwidth_spec_witness :
    ∃ peak,
      (estimateBandwidth (fun _ => 0) 2 0 1).2 ≤ 2 ∧
      (fun _ => (0 : Int)) (estimateBandwidth (fun _ => 0) 2 0 1).2 = peak ∧
      (∀ i, i ≤ 2 → (fun _ => (0 : Int)) i ≤ peak) ∧
      (estimateBandwidth (fun _ => 0) 2 0 1).1 =
        rightEdgeSpec (fun _ => 0) (fix16_mul peak 0) 1
          (estimateBandwidth (fun _ => 0) 2 0 1).2 2 -
        (leftEdgeSpec (fun _ => 0) (fix16_mul peak 0) 1
          (estimateBandwidth (fun _ => 0) 2 0 1).2 : Int) :=
  estimateBandwidth_spec (fun _ => 0) 2 0 1 (by norm_num) (fun i _ => le_refl 0)
